import Mathlib

/-
Verification development for the C-SJX Bouc-Wen synthetic-jet model
(src/csjx_boucwen_model.py).

The Python floating-point code is embedded shallowly over the real numbers:
numpy arrays indexed by a time grid become functions of the sample index,
the sequential Bouc-Wen loop becomes a structural recursion, and the two
Python exceptions the module can actually raise during a simulation run
(ZeroDivisionError from 1.0/f or from a zero arange step, ValueError from
np.gradient on a slice of fewer than two samples) become an Except result.
Real division by zero in Lean is the total x/0 = 0 convention; no claim
below exercises that corner.  Exponentiation with a real exponent is
Real.rpow, matching Python's float ** for nonnegative bases.
-/

noncomputable section

namespace CSJX

open Real

/-- Embedding of `formation_envelope(S, sigma=1.0, S_opt=4.0)`:
Gaussian-ish efficiency envelope peaking near `S_opt`.  Lean has no default
arguments here; call sites pass the Python defaults explicitly. -/
def formation_envelope (S sigma S_opt : ℝ) : ℝ :=
  Real.exp (-0.5 * ((S - S_opt) / sigma) ^ 2)

/-- Embedding of `hysteresis_gain(tau_R, tau0=0.5, k_H=0.6)`:
continuity gain factor `1.0 + k_H * (tau_R/(tau_R + tau0))`. -/
def hysteresis_gain (tau_R tau0 k_H : ℝ) : ℝ :=
  1.0 + k_H * (tau_R / (tau_R + tau0))

/-- Embedding of `bouc_wen(xdot, z, A=1.0, beta=0.6, gamma=0.2, n=2)`:
Bouc-Wen hysteresis evolution dz/dt.  The exponent `n` is kept as a real
number (Python's `**` on floats), so `|z| ^ (n-1)` and `|z| ^ n` are
`Real.rpow` applications. -/
def bouc_wen (xdot z A beta gamma n : ℝ) : ℝ :=
  A * xdot - beta * |xdot| * |z| ^ (n - 1) * z - gamma * xdot * |z| ^ n

/-- Diaphragm proxy amplitude `x_amp = L0/2.0` with `L0 = S*D`
(from `simulate_cycle`). -/
def x_amp (stroke_ratio D : ℝ) : ℝ :=
  stroke_ratio * D / 2.0

/-- The `i`-th entry of the time grid `t = np.arange(0.0, duration, dt)`. -/
def tSeq (dt : ℝ) (i : ℕ) : ℝ := (i : ℝ) * dt

/-- Number of samples of `np.arange(0.0, duration, dt)` with
`duration = duration_cycles * (1.0/f)`: the ceiling of `duration/dt`,
clamped to zero when the ratio is nonpositive. -/
def numSamples (f dt : ℝ) (duration_cycles : ℕ) : ℕ :=
  ⌈((duration_cycles : ℝ) * (1.0 / f)) / dt⌉₊

/-- `idx0 = int(0.8*len(t))`: truncation of `0.8 * N` (floor, the value is
nonnegative). -/
def idx0 (N : ℕ) : ℕ := ⌊(0.8 : ℝ) * (N : ℝ)⌋₊

/-- Diaphragm displacement `x(t) = x_amp * sin(2*pi*f*t)` at sample `i`. -/
def xSeq (D f stroke_ratio dt : ℝ) (i : ℕ) : ℝ :=
  x_amp stroke_ratio D * Real.sin (2 * π * f * tSeq dt i)

/-- Diaphragm velocity `xdot(t) = 2*pi*f*x_amp * cos(2*pi*f*t)` at sample `i`. -/
def xdotSeq (D f stroke_ratio dt : ℝ) (i : ℕ) : ℝ :=
  2 * π * f * x_amp stroke_ratio D * Real.cos (2 * π * f * tSeq dt i)

/-- Embedding of the sequential Bouc-Wen state loop of `simulate_cycle`:
`z[0] = 0` and
`z[i] = z[i-1] + bouc_wen(xdot[i-1], z[i-1], A, beta, gamma, n) * dt / max(1e-9, tau_R)`. -/
def zSeq (xdot : ℕ → ℝ) (A beta gamma n dt tau_R : ℝ) : ℕ → ℝ
  | 0 => 0
  | i + 1 =>
      zSeq xdot A beta gamma n dt tau_R i +
        bouc_wen (xdot i) (zSeq xdot A beta gamma n dt tau_R i) A beta gamma n * dt /
          max 1e-9 tau_R

/-- Stiffness proxy `k1 = 1.0 / max(1e-12, cavity_C)`. -/
def k1 (cavity_C : ℝ) : ℝ := 1.0 / max 1e-12 cavity_C

/-- Pressure `p = k1*x + k2*z` with hysteretic weight `k2 = 0.2*k1`. -/
def pSeq (cavity_C : ℝ) (x z : ℕ → ℝ) (i : ℕ) : ℝ :=
  k1 cavity_C * x i + 0.2 * k1 cavity_C * z i

/-- Orifice area proxy `A0 = pi*(D/2.0)**2`. -/
def A0 (D : ℝ) : ℝ := π * (D / 2.0) ^ 2

/-- Volume change `dV = A0 * x`. -/
def dVSeq (D : ℝ) (x : ℕ → ℝ) (i : ℕ) : ℝ := A0 D * x i

/-- The boolean outstroke mask `out = xdot > 0`, cast to a float factor as
numpy does when multiplying. -/
def gate (xdot : ℕ → ℝ) (i : ℕ) : ℝ := if 0 < xdot i then 1 else 0

/-- Crude exit-flow mapping `u = (xdot/A0) * out`. -/
def uSeq (A0v : ℝ) (xdot : ℕ → ℝ) (i : ℕ) : ℝ :=
  xdot i / A0v * gate xdot i

/-- Exit velocity `u_exit = Cc * u` with contraction factor `Cc = 0.8`. -/
def uExitSeq (A0v : ℝ) (xdot : ℕ → ℝ) (i : ℕ) : ℝ :=
  0.8 * uSeq A0v xdot i

/-- Instantaneous thrust `thrust_inst = 1.0 * rho * A0 * u_exit**2 * out`. -/
def thrustSeq (rho A0v : ℝ) (xdot : ℕ → ℝ) (i : ℕ) : ℝ :=
  1.0 * rho * A0v * uExitSeq A0v xdot i ^ 2 * gate xdot i

/-- Embedding of `np.trapz(y, x)` over samples `0, ..., N-1`. -/
def trapz (y x : ℕ → ℝ) (N : ℕ) : ℝ :=
  ∑ i ∈ Finset.range (N - 1), (x (i + 1) - x i) * (y i + y (i + 1)) / 2

/-- Embedding of `np.gradient(F, x)` (edge_order 1 at the boundaries, the
second-order non-uniform stencil in the interior) on an array of `N`
samples. -/
def npGradient (F x : ℕ → ℝ) (N i : ℕ) : ℝ :=
  if i = 0 then (F 1 - F 0) / (x 1 - x 0)
  else if i = N - 1 then (F (N - 1) - F (N - 2)) / (x (N - 1) - x (N - 2))
  else
    ((x i - x (i - 1)) ^ 2 * F (i + 1) +
        ((x (i + 1) - x i) ^ 2 - (x i - x (i - 1)) ^ 2) * F i -
        (x (i + 1) - x i) ^ 2 * F (i - 1)) /
      ((x i - x (i - 1)) * (x (i + 1) - x i) * ((x (i + 1) - x i) + (x i - x (i - 1))))

/-- The dictionary returned by `simulate_cycle`: time traces as lists of
samples plus the summary metrics. -/
structure SimResult where
  t : List ℝ
  x : List ℝ
  xdot : List ℝ
  z : List ℝ
  p : List ℝ
  dV : List ℝ
  A_loop : ℝ
  impulse_raw : ℝ
  impulse : ℝ
  S : ℝ
  tau_R : ℝ
  D : ℝ
  f : ℝ

/-- The Python exceptions the module can raise while `simulate_cycle` runs:
`ZeroDivisionError` (from `1.0/f` at `f = 0`, or from an arange step of 0)
and `ValueError` (from `np.gradient` on a slice of fewer than two samples). -/
inductive SimError where
  | zeroDivisionError : SimError
  | valueError : SimError

/-- The body of `simulate_cycle` once the time grid exists: kinematics,
Bouc-Wen integration, pressure/flow model and cycle metrics, exactly as in
the source.  `mu_air` and `seed` are omitted because the source body never
reads them (the local `rng` is created and unused). -/
def simulate_core (D f stroke_ratio tau_R cavity_C rho A_bw beta gamma n : ℝ)
    (duration_cycles : ℕ) (dt : ℝ) : SimResult :=
  let N := numSamples f dt duration_cycles
  let xs := xSeq D f stroke_ratio dt
  let xd := xdotSeq D f stroke_ratio dt
  let zs := zSeq xd A_bw beta gamma n dt tau_R
  let ps := pSeq cavity_C xs zs
  let dVs := dVSeq D xs
  let i0 := idx0 N
  let M := N - i0
  let impulse_raw := trapz (thrustSeq rho (A0 D) xd) (tSeq dt) N
  { t := (List.range N).map (tSeq dt)
    x := (List.range N).map xs
    xdot := (List.range N).map xd
    z := (List.range N).map zs
    p := (List.range N).map ps
    dV := (List.range N).map dVs
    A_loop :=
      trapz
        (fun j => ps (i0 + j) *
          npGradient (fun j => dVs (i0 + j)) (fun j => tSeq dt (i0 + j)) M j)
        (fun j => tSeq dt (i0 + j)) M
    impulse_raw := impulse_raw
    impulse := impulse_raw * formation_envelope stroke_ratio 1.0 4.0 *
      hysteresis_gain tau_R 0.5 0.6
    S := stroke_ratio
    tau_R := tau_R
    D := D
    f := f }

/-- Embedding of `simulate_cycle`.  The source performs no input
validation; the only ways it can fail are the runtime exceptions modelled
by `SimError`.  `mu_air` and `seed` are accepted and ignored, as in the
source. -/
def simulate_cycle (D f stroke_ratio tau_R cavity_C rho mu_air A_bw beta gamma n : ℝ)
    (duration_cycles : ℕ) (dt : ℝ) (seed : ℕ) : Except SimError SimResult :=
  if f = 0 then Except.error SimError.zeroDivisionError
  else if dt = 0 then Except.error SimError.zeroDivisionError
  else if numSamples f dt duration_cycles - idx0 (numSamples f dt duration_cycles) < 2 then
    Except.error SimError.valueError
  else
    Except.ok (simulate_core D f stroke_ratio tau_R cavity_C rho A_bw beta gamma n
      duration_cycles dt)

/-- Embedding of `sweep_S_tauR` on explicitly supplied grids (the `None`
defaults of the source merely fill in a standard grid and are elided):
for each `tau_R` compute `H` once, then emit one `(S, tau_R, impulse)`
triple per `S`, appending in loop order. -/
def sweep_S_tauR (S_vals tau_vals : List ℝ) (sigma k_H : ℝ) : List (ℝ × ℝ × ℝ) :=
  tau_vals.flatMap fun tau_R =>
    let H := tau_R / (tau_R + 0.5)
    S_vals.map fun S =>
      (S, tau_R, Real.exp (-0.5 * ((S - 4.0) / sigma) ^ 2) * (1.0 + k_H * H))

/-- The residual vector of `fit_sigma_kH`: benchmark rows are
`(S, tau_R, impulse)` triples, parameters are `(sigma, kH)`, and each
residual is `model - bench_impulse` with the inline envelope/gain model of
the source. -/
def fit_resid (bench : List (ℝ × ℝ × ℝ)) (tau0 : ℝ) (params : ℝ × ℝ) : List ℝ :=
  bench.map fun b =>
    Real.exp (-0.5 * ((b.1 - 4.0) / params.1) ^ 2) *
        (1.0 + params.2 * (b.2.1 / (b.2.1 + tau0))) -
      b.2.2

/-- The result object of `scipy.optimize.least_squares`, the external
bounded solver called by `fit_sigma_kH`.  The solver itself is outside the
repository, so its outcome is an oracle: the final iterate `x` and the
convergence flag `success`.  Its `cost` field is not free: per the scipy
documentation it always equals half the sum of squared residuals at `x`,
which is how `scipy_cost` computes it below. -/
structure LeastSquaresResult where
  x : ℝ × ℝ
  success : Bool

/-- `res.cost` of `scipy.optimize.least_squares` with the default linear
loss: `0.5 * sum(resid(x)**2)`. -/
def scipy_cost (bench : List (ℝ × ℝ × ℝ)) (tau0 : ℝ) (x : ℝ × ℝ) : ℝ :=
  0.5 * ((fit_resid bench tau0 x).map fun r => r ^ 2).sum

/-- The sum of squared residuals of the surrogate model at a parameter
point: the quantity the specification calls the final cost. -/
def sum_sq_resid (bench : List (ℝ × ℝ × ℝ)) (tau0 : ℝ) (params : ℝ × ℝ) : ℝ :=
  ((fit_resid bench tau0 params).map fun r => r ^ 2).sum

/-- Embedding of `fit_sigma_kH`: it unpacks `res.x` and returns
`(sigma_fit, kH_fit, res.cost)`.  The starting guess `init` is handed to
the external solver and otherwise unused; the solver outcome is the
`LeastSquaresResult` oracle.  Note that the source reads neither
`res.success` nor `res.status`. -/
def fit_sigma_kH (bench : List (ℝ × ℝ × ℝ)) (tau0 : ℝ) (init : ℝ × ℝ)
    (res : LeastSquaresResult) : ℝ × ℝ × ℝ :=
  (res.x.1, res.x.2, scipy_cost bench tau0 res.x)

/-! Theorems settling the frozen claims. -/

/-- C1: the hysteretic state starts at `z[0] = 0`, every later sample obeys
`z[i] = z[i-1] + dt/max(tau_R, 1e-9) * (A*xdot[i-1] - beta*|xdot[i-1]|*|z[i-1]|^(n-1)*z[i-1]
- gamma*xdot[i-1]*|z[i-1]|^n)`, and the term `|z|^(n-1)*z` carries the sign
of `z` for every real exponent `n ≥ 1`. -/
theorem C1_z_recurrence (xdot : ℕ → ℝ) (A beta gamma n dt tau_R : ℝ) :
    zSeq xdot A beta gamma n dt tau_R 0 = 0 ∧
    (∀ i : ℕ, 1 ≤ i →
      zSeq xdot A beta gamma n dt tau_R i =
        zSeq xdot A beta gamma n dt tau_R (i - 1) +
          dt / max tau_R 1e-9 *
            (A * xdot (i - 1) -
              beta * |xdot (i - 1)| *
                |zSeq xdot A beta gamma n dt tau_R (i - 1)| ^ (n - 1) *
                zSeq xdot A beta gamma n dt tau_R (i - 1) -
              gamma * xdot (i - 1) *
                |zSeq xdot A beta gamma n dt tau_R (i - 1)| ^ n)) ∧
    (∀ w m : ℝ, 1 ≤ m → Real.sign (|w| ^ (m - 1) * w) = Real.sign w) := by
  refine ⟨rfl, ?_, ?_⟩
  · intro i hi
    obtain ⟨j, rfl⟩ := Nat.exists_eq_add_of_le hi
    have hsub : 1 + j - 1 = j := by omega
    rw [hsub]
    have hrec : zSeq xdot A beta gamma n dt tau_R (1 + j) =
        zSeq xdot A beta gamma n dt tau_R j +
          bouc_wen (xdot j) (zSeq xdot A beta gamma n dt tau_R j) A beta gamma n * dt /
            max 1e-9 tau_R := by
      rw [Nat.add_comm 1 j]
      rfl
    rw [hrec, max_comm (1e-9 : ℝ) tau_R]
    unfold bouc_wen
    generalize |zSeq xdot A beta gamma n dt tau_R j| ^ (n - 1) = P
    generalize |zSeq xdot A beta gamma n dt tau_R j| ^ n = Q
    ring
  · intro w m _
    rcases lt_trichotomy w 0 with hw | hw | hw
    · have habs : 0 < |w| := abs_pos.mpr (ne_of_lt hw)
      have hp : 0 < |w| ^ (m - 1) := Real.rpow_pos_of_pos habs _
      rw [Real.sign_of_neg (mul_neg_of_pos_of_neg hp hw), Real.sign_of_neg hw]
    · rw [hw, mul_zero, Real.sign_zero]
    · have habs : 0 < |w| := abs_pos.mpr (ne_of_gt hw)
      have hp : 0 < |w| ^ (m - 1) := Real.rpow_pos_of_pos habs _
      rw [Real.sign_of_pos (mul_pos hp hw), Real.sign_of_pos hw]

/-- Witness for C1: the sign-preservation clause at `z = -2`, `n = 2`,
via the theorem instantiated at the source defaults. -/
theorem C1_z_recurrence_witness :
    (1 : ℝ) ≤ 2 ∧ Real.sign (|(-2 : ℝ)| ^ ((2 : ℝ) - 1) * (-2)) = Real.sign (-2) :=
  ⟨by norm_num,
   (C1_z_recurrence (fun _ => 0) 1.0 0.6 0.2 2 1e-5 2.0).2.2 (-2) 2 (by norm_num)⟩

/-- The default time grid of the concrete scenario (`f = 150`, `dt = 1e-5`,
`duration_cycles = 10`) has `ceil(20000/3) = 6667` samples. -/
theorem numSamples_default : numSamples 150 1e-5 10 = 6667 := by
  unfold numSamples
  have h : ((10 : ℕ) : ℝ) * (1.0 / 150) / 1e-5 = 20000 / 3 := by norm_num
  rw [h, Nat.ceil_eq_iff (by norm_num)]
  norm_num

/-- The startup-transient cut of a 6667-sample run is `int(0.8*6667) = 5333`. -/
theorem idx0_6667 : idx0 6667 = 5333 := by
  unfold idx0
  have h : (0.8 : ℝ) * ((6667 : ℕ) : ℝ) = 26668 / 5 := by norm_num
  rw [h, Nat.floor_eq_iff (by norm_num)]
  norm_num

/-- C2 counterexample: at the non-positive diameter `D = -0.01` (all other
arguments at the source defaults) `simulate_cycle` does not report any
error: it runs to completion and returns the full trace and metrics. -/
theorem C2_counterexample :
    simulate_cycle (-0.01) 150 4.0 2.0 2e-8 1.2 1.8e-5 1.0 0.6 0.2 2 10 1e-5 417 =
      Except.ok (simulate_core (-0.01) 150 4.0 2.0 2e-8 1.2 1.0 0.6 0.2 2 10 1e-5) := by
  unfold simulate_cycle
  rw [if_neg (by norm_num : ¬((150 : ℝ) = 0)), if_neg (by norm_num : ¬((1e-5 : ℝ) = 0)),
    numSamples_default, idx0_6667, if_neg (by norm_num)]

/-- C2 amended: `simulate_cycle` performs no input validation at all.  With
the default frequency, time step and duration, every diameter `D` —
non-positive ones included — produces a normal result carrying the full
trace and metrics; the only failures the source can produce are runtime
exceptions raised mid-computation (`f = 0`, `dt = 0`, or a too-short
trailing window), never an InvalidParameter report issued before
computation. -/
theorem C2_no_validation (D : ℝ) :
    simulate_cycle D 150 4.0 2.0 2e-8 1.2 1.8e-5 1.0 0.6 0.2 2 10 1e-5 417 =
      Except.ok (simulate_core D 150 4.0 2.0 2e-8 1.2 1.0 0.6 0.2 2 10 1e-5) := by
  unfold simulate_cycle
  rw [if_neg (by norm_num : ¬((150 : ℝ) = 0)), if_neg (by norm_num : ¬((1e-5 : ℝ) = 0)),
    numSamples_default, idx0_6667, if_neg (by norm_num)]

/-- C6: for every input grid and coefficients, `sweep_S_tauR` returns the
full cross-product, outer loop over `tau_R`, inner loop over `S`, and every
row's impulse equals `formation_envelope(S, sigma) * hysteresis_gain(tau_R, 0.5, k_H)`
computed from the independently defined envelope and gain functions;
in particular the table has `tau_vals.length * S_vals.length` rows. -/
theorem C6_sweep_cross_product (S_vals tau_vals : List ℝ) (sigma k_H : ℝ) :
    sweep_S_tauR S_vals tau_vals sigma k_H =
      (tau_vals.flatMap fun tau_R => S_vals.map fun S =>
        (S, tau_R, formation_envelope S sigma 4.0 * hysteresis_gain tau_R 0.5 k_H)) ∧
    (sweep_S_tauR S_vals tau_vals sigma k_H).length =
      tau_vals.length * S_vals.length := by
  constructor
  · rfl
  · induction tau_vals with
    | nil => simp [sweep_S_tauR]
    | cons hd tl ih =>
      simp only [sweep_S_tauR, List.flatMap_cons, List.length_append,
        List.length_map, List.length_cons] at ih ⊢
      rw [ih]
      ring

/-- C7: for `k_H > 0` the gain `hysteresis_gain(tau_R, 0.5, k_H)` equals 1
at `tau_R = 0`, is strictly increasing for `tau_R > 0`, and is strictly
below `1 + k_H` for every `tau_R ≥ 0`. -/
theorem C7_gain_properties (k_H : ℝ) (hk : 0 < k_H) :
    hysteresis_gain 0 0.5 k_H = 1 ∧
    (∀ t1 t2 : ℝ, 0 < t1 → t1 < t2 →
      hysteresis_gain t1 0.5 k_H < hysteresis_gain t2 0.5 k_H) ∧
    (∀ t : ℝ, 0 ≤ t → hysteresis_gain t 0.5 k_H < 1 + k_H) := by
  refine ⟨by unfold hysteresis_gain; norm_num, ?_, ?_⟩
  · intro t1 t2 h1 h12
    unfold hysteresis_gain
    have hd1 : (0 : ℝ) < t1 + 0.5 := by linarith
    have hd2 : (0 : ℝ) < t2 + 0.5 := by linarith
    have hH : t1 / (t1 + 0.5) < t2 / (t2 + 0.5) := by
      rw [div_lt_div_iff₀ hd1 hd2]
      nlinarith
    have := mul_lt_mul_of_pos_left hH hk
    linarith
  · intro t ht
    unfold hysteresis_gain
    have hH : t / (t + 0.5) < 1 := by
      rw [div_lt_one (by linarith)]
      linarith
    have := mul_lt_mul_of_pos_left hH hk
    rw [mul_one] at this
    linarith

/-- Witness for C7 at the source defaults `k_H = 0.6`. -/
theorem C7_gain_properties_witness :
    hysteresis_gain 0 0.5 0.6 = 1 ∧ hysteresis_gain 1 0.5 0.6 < 1 + 0.6 :=
  ⟨(C7_gain_properties 0.6 (by norm_num)).1,
   (C7_gain_properties 0.6 (by norm_num)).2.2 1 (by norm_num)⟩

/-- C8: with the default width `sigma = 1.0` and peak `S_opt = 4.0`, the
envelope lies in `(0, 1]`, equals 1 exactly at `S = 4.0`, is symmetric
about `S = 4.0`, and is strictly decreasing as `|S - 4.0|` grows. -/
theorem C8_envelope_properties :
    (∀ S : ℝ, 0 < formation_envelope S 1.0 4.0 ∧ formation_envelope S 1.0 4.0 ≤ 1) ∧
    formation_envelope 4.0 1.0 4.0 = 1 ∧
    (∀ d : ℝ, formation_envelope (4.0 + d) 1.0 4.0 = formation_envelope (4.0 - d) 1.0 4.0) ∧
    (∀ S1 S2 : ℝ, |S1 - 4.0| < |S2 - 4.0| →
      formation_envelope S2 1.0 4.0 < formation_envelope S1 1.0 4.0) := by
  refine ⟨?_, ?_, ?_, ?_⟩
  · intro S
    unfold formation_envelope
    refine ⟨Real.exp_pos _, ?_⟩
    rw [Real.exp_le_one_iff]
    nlinarith [sq_nonneg ((S - 4.0) / 1.0)]
  · have h0 : (-0.5 * ((4.0 - 4.0) / 1.0) ^ 2 : ℝ) = 0 := by norm_num
    unfold formation_envelope
    rw [h0, Real.exp_zero]
  · intro d
    unfold formation_envelope
    congr 1
    ring
  · intro S1 S2 h
    unfold formation_envelope
    rw [Real.exp_lt_exp]
    have hsq : (S1 - 4.0) ^ 2 < (S2 - 4.0) ^ 2 := by
      have hm := mul_self_lt_mul_self (abs_nonneg (S1 - 4.0)) h
      rw [abs_mul_abs_self, abs_mul_abs_self] at hm
      nlinarith [hm]
    nlinarith [hsq]

/-- Witness for C8: the decay hypothesis discharged at `S1 = 4`, `S2 = 5`. -/
theorem C8_envelope_properties_witness :
    |(4.0 : ℝ) - 4.0| < |(5.0 : ℝ) - 4.0| ∧
    formation_envelope 5.0 1.0 4.0 < formation_envelope 4.0 1.0 4.0 :=
  ⟨by rw [show (4.0 : ℝ) - 4.0 = 0 by norm_num, show (5.0 : ℝ) - 4.0 = 1 by norm_num,
      abs_zero, abs_one]; norm_num,
   C8_envelope_properties.2.2.2 4.0 5.0
     (by rw [show (4.0 : ℝ) - 4.0 = 0 by norm_num, show (5.0 : ℝ) - 4.0 = 1 by norm_num,
        abs_zero, abs_one]; norm_num)⟩

/-- C3 counterexample: two solver outcomes that differ only in the
convergence flag (`success = true` versus `success = false`) are mapped by
`fit_sigma_kH` to identical return values — the caller cannot observe
non-convergence from the result. -/
theorem C3_counterexample :
    fit_sigma_kH [(4.0, 0.0, 0.0)] 0.5 (1.0, 0.6) ⟨(1.0, 0.6), true⟩ =
      fit_sigma_kH [(4.0, 0.0, 0.0)] 0.5 (1.0, 0.6) ⟨(1.0, 0.6), false⟩ := rfl

/-- C3 amended: `fit_sigma_kH` returns only `(res.x, res.cost)` and
discards the solver's convergence status entirely: any two solver outcomes
with the same final iterate produce identical results, converged or not,
so a non-converged last iterate is returned exactly like a fitted value. -/
theorem C3_convergence_discarded (bench : List (ℝ × ℝ × ℝ)) (tau0 : ℝ) (init : ℝ × ℝ)
    (r1 r2 : LeastSquaresResult) (hx : r1.x = r2.x) :
    fit_sigma_kH bench tau0 init r1 = fit_sigma_kH bench tau0 init r2 := by
  unfold fit_sigma_kH
  rw [hx]

/-- Witness for C3 amended, at an empty benchmark and oracle outcomes that
differ in the convergence flag. -/
theorem C3_convergence_discarded_witness :
    (⟨(1.0, 0.6), true⟩ : LeastSquaresResult).x =
      (⟨(1.0, 0.6), false⟩ : LeastSquaresResult).x ∧
    fit_sigma_kH [] 0.5 (1.0, 0.6) ⟨(1.0, 0.6), true⟩ =
      fit_sigma_kH [] 0.5 (1.0, 0.6) ⟨(1.0, 0.6), false⟩ :=
  ⟨rfl, C3_convergence_discarded [] 0.5 (1.0, 0.6) ⟨(1.0, 0.6), true⟩
    ⟨(1.0, 0.6), false⟩ rfl⟩

/-- C4 counterexample: on the one-row benchmark `(S, tau_R, impulse) =
(4, 0, 0)` with the solver oracle returning `x = (1.0, 0.6)`, the third
returned value is `0.5` while the sum of squared residuals at the returned
point is `1`: the returned cost is not the sum of squared residuals. -/
theorem C4_counterexample :
    (fit_sigma_kH [(4.0, 0.0, 0.0)] 0.5 (1.0, 0.6) ⟨(1.0, 0.6), true⟩).2.2 ≠
      sum_sq_resid [(4.0, 0.0, 0.0)] 0.5
        ((fit_sigma_kH [(4.0, 0.0, 0.0)] 0.5 (1.0, 0.6) ⟨(1.0, 0.6), true⟩).1,
         (fit_sigma_kH [(4.0, 0.0, 0.0)] 0.5 (1.0, 0.6) ⟨(1.0, 0.6), true⟩).2.1) := by
  unfold fit_sigma_kH scipy_cost sum_sq_resid fit_resid
  norm_num [Real.exp_zero]

/-- C4 amended: the third value returned by `fit_sigma_kH` equals one half
of the sum of squared residuals of the surrogate model at the returned
fitted point (scipy's cost convention `0.5 * sum(resid**2)`), for every
benchmark dataset and solver outcome. -/
theorem C4_cost_is_half_ssr (bench : List (ℝ × ℝ × ℝ)) (tau0 : ℝ) (init : ℝ × ℝ)
    (res : LeastSquaresResult) :
    fit_sigma_kH bench tau0 init res =
      (res.x.1, res.x.2, 1 / 2 * sum_sq_resid bench tau0 res.x) := by
  unfold fit_sigma_kH scipy_cost sum_sq_resid
  norm_num

/-- C5 counterexample: instantaneous thrust can be strictly negative.  At
the source defaults except `rho = -1.2`, the very first sample of the
outstroke (index 0, where `cos = 1` so `xdot > 0`) has negative thrust. -/
theorem C5_counterexample :
    thrustSeq (-1.2) (A0 0.01) (xdotSeq 0.01 150 4.0 1e-5) 0 < 0 := by
  have hA : 0 < A0 0.01 := by unfold A0; positivity
  have hx : 0 < xdotSeq 0.01 150 4.0 1e-5 0 := by
    unfold xdotSeq
    have h0 : 2 * π * 150 * tSeq 1e-5 0 = 0 := by
      unfold tSeq
      push_cast
      ring
    rw [h0, Real.cos_zero]
    unfold x_amp
    nlinarith [Real.pi_pos]
  have hg : gate (xdotSeq 0.01 150 4.0 1e-5) 0 = 1 := by
    unfold gate
    rw [if_pos hx]
  have hu : 0 < uExitSeq (A0 0.01) (xdotSeq 0.01 150 4.0 1e-5) 0 := by
    unfold uExitSeq uSeq
    rw [hg, mul_one]
    have hd := div_pos hx hA
    linarith
  unfold thrustSeq
  rw [hg, mul_one]
  nlinarith [mul_pos hA (pow_pos hu 2)]

/-- C5 amended: for every run with nonnegative fluid density `rho`, the
instantaneous thrust is nonnegative at every sample, and at every sample
whose drive velocity is not strictly positive (the instroke half) both the
thrust and the exit velocity are exactly zero. -/
theorem C5_thrust_gated (rho D f stroke_ratio dt : ℝ) (i : ℕ) (hrho : 0 ≤ rho) :
    0 ≤ thrustSeq rho (A0 D) (xdotSeq D f stroke_ratio dt) i ∧
    (xdotSeq D f stroke_ratio dt i ≤ 0 →
      thrustSeq rho (A0 D) (xdotSeq D f stroke_ratio dt) i = 0 ∧
      uExitSeq (A0 D) (xdotSeq D f stroke_ratio dt) i = 0) := by
  constructor
  · unfold thrustSeq
    have hA : 0 ≤ A0 D := by unfold A0; positivity
    have hgate : 0 ≤ gate (xdotSeq D f stroke_ratio dt) i := by
      unfold gate
      split <;> norm_num
    have hsq : 0 ≤ uExitSeq (A0 D) (xdotSeq D f stroke_ratio dt) i ^ 2 := sq_nonneg _
    have h1 : 0 ≤ 1.0 * rho := by linarith
    exact mul_nonneg (mul_nonneg (mul_nonneg h1 hA) hsq) hgate
  · intro hle
    have hg : gate (xdotSeq D f stroke_ratio dt) i = 0 := by
      unfold gate
      rw [if_neg (not_lt.mpr hle)]
    refine ⟨?_, ?_⟩
    · unfold thrustSeq
      rw [hg, mul_zero]
    · unfold uExitSeq uSeq
      rw [hg, mul_zero, mul_zero]

/-- Witness for C5 amended at `rho = 1.2`, `D = 0.01`, `f = 1`, `S = 4`,
`dt = 0.5`, sample 1, where the drive phase is `pi` and the velocity is
negative: both hypotheses of the theorem are discharged concretely. -/
theorem C5_thrust_gated_witness :
    thrustSeq 1.2 (A0 0.01) (xdotSeq 0.01 1.0 4.0 0.5) 1 = 0 ∧
    uExitSeq (A0 0.01) (xdotSeq 0.01 1.0 4.0 0.5) 1 = 0 :=
  (C5_thrust_gated 1.2 0.01 1.0 4.0 0.5 1 (by norm_num)).2 (by
    unfold xdotSeq
    have h1 : 2 * π * 1.0 * tSeq 0.5 1 = π := by
      unfold tSeq
      push_cast
      ring
    rw [h1, Real.cos_pi]
    unfold x_amp
    nlinarith [Real.pi_pos])

/-- C9: `simulate_cycle` is a pure function of its parameters, and its
output does not depend on the `seed` argument: the body never reads the
random generator. -/
theorem C9_seed_unused (D f stroke_ratio tau_R cavity_C rho mu_air A_bw beta gamma n : ℝ)
    (duration_cycles : ℕ) (dt : ℝ) (s1 s2 : ℕ) :
    simulate_cycle D f stroke_ratio tau_R cavity_C rho mu_air A_bw beta gamma n
        duration_cycles dt s1 =
      simulate_cycle D f stroke_ratio tau_R cavity_C rho mu_air A_bw beta gamma n
        duration_cycles dt s2 := rfl

/-- C10: whenever `simulate_cycle` returns a result, its effective impulse
equals `impulse_raw * exp(-0.5*((S-4.0)/1.0)^2) * (1 + 0.6*(tau_R/(tau_R+0.5)))`
with the envelope width, peak location, gain coefficient and `tau0` fixed
as literals: none of the function's arguments can change them. -/
theorem C10_impulse_formula (D f stroke_ratio tau_R cavity_C rho mu_air A_bw beta gamma n : ℝ)
    (duration_cycles : ℕ) (dt : ℝ) (seed : ℕ) :
    (simulate_cycle D f stroke_ratio tau_R cavity_C rho mu_air A_bw beta gamma n
        duration_cycles dt seed).map (fun r => r.impulse) =
      (simulate_cycle D f stroke_ratio tau_R cavity_C rho mu_air A_bw beta gamma n
        duration_cycles dt seed).map (fun r =>
          r.impulse_raw * Real.exp (-0.5 * ((r.S - 4.0) / 1.0) ^ 2) *
            (1 + 0.6 * (r.tau_R / (r.tau_R + 0.5)))) := by
  unfold simulate_cycle
  split_ifs
  · rfl
  · rfl
  · rfl
  · simp only [Except.map, simulate_core, formation_envelope, hysteresis_gain]
    norm_num

end CSJX

end
